import Mathlib

/-!
Verification of the citation/reference matching core of TaShan-PaperChecker.

Python strings are modelled as `List Char`; Python `None` for an optional
string becomes `Option (List Char)`; Python floats (scores) are modelled as
rationals.  Every definition mirrors one function of the source tree
(`src/core/checker/citation_checking/reference_mapper.py`,
`src/core/extractor/citation_extraction/citation_extractor.py`,
`src/core/extractor/citation_extraction/citation_formatter.py`,
`src/core/checker/citation_checking/citation_analyzer.py`) plus the parts of
CPython's `difflib.SequenceMatcher` that the source calls.
-/

/- The Batteries implementations of rational arithmetic are marked
irreducible, which blocks `decide` from evaluating concrete scores; the
kernel itself reduces them fine, so we restore semireducibility locally. -/
attribute [local semireducible] Rat.mul Rat.inv Rat.add Rat.sub

/-- Python whitespace test used by `str.strip`, `str.split` and `\s`. -/
def isSpace (c : Char) : Bool := c.isWhitespace

/-- Python `str.strip()`: drop leading and trailing whitespace. -/
def pyStrip (s : List Char) : List Char :=
  ((s.dropWhile isSpace).reverse.dropWhile isSpace).reverse

/-- Python `str.lower()` (ASCII case folding; the characters the checker
processes outside ASCII are CJK and full-width punctuation, unchanged by
`lower`). -/
def pyLower (s : List Char) : List Char := s.map Char.toLower

/-- Python `haystack.find(needle)`: index of the first occurrence, `none`
for `-1`.  The empty needle is found at index 0, as in Python. -/
def pyFind (needle : List Char) : List Char → Option Nat
  | [] => if needle.isPrefixOf ([] : List Char) then some 0 else none
  | c :: rest =>
    if needle.isPrefixOf (c :: rest) then some 0
    else (pyFind needle rest).map (· + 1)

/-- Python `needle in haystack` on strings. -/
def pyIn (needle hay : List Char) : Bool := (pyFind needle hay).isSome

/-- First segment of Python `s.split(sep)` for a one-character separator. -/
def takeBeforeChar (s : List Char) (sep : Char) : List Char :=
  s.takeWhile (fun c => decide (c ≠ sep))

/-- First segment of Python `s.split(sub)` for a multi-character separator. -/
def takeBeforeSub (s sub : List Char) : List Char :=
  match pyFind sub s with
  | some p => s.take p
  | none => s

/-- Helper of `pySplit`: split at every whitespace character, keeping
empty segments. -/
def pySplitAux : List Char → List Char → List (List Char)
  | acc, [] => [acc.reverse]
  | acc, c :: rest =>
    if isSpace c then acc.reverse :: pySplitAux [] rest
    else pySplitAux (c :: acc) rest

/-- Python `str.split()` with no argument: split on whitespace runs and
drop empty pieces. -/
def pySplit (s : List Char) : List (List Char) :=
  (pySplitAux [] s).filter (fun p => decide (p ≠ []))

/-- Split on a single (possibly full-width) character, keeping empty
segments, as Python `s.split(sep)`. -/
def splitOnCharCL (sep : Char) : List Char → List (List Char)
  | [] => [[]]
  | c :: rest =>
    if c = sep then [] :: splitOnCharCL sep rest
    else
      match splitOnCharCL sep rest with
      | [] => [[c]]
      | seg :: segs => (c :: seg) :: segs

/-- Python `str.isupper()`: at least one cased character and no lower-case
cased character (ASCII letters are the cased characters in the checker's
data; CJK characters are uncased). -/
def pyIsUpper (s : List Char) : Bool :=
  s.any (fun c => c.isUpper || c.isLower) && s.all (fun c => !c.isLower)

/-- `contains_chinese` (reference_mapper.py:513, citation_extractor.py:10,
citation_formatter.py:302): a CJK codepoint in the range U+4E00–U+9FFF. -/
def contains_chinese (s : List Char) : Bool :=
  s.any (fun c => decide (0x4e00 ≤ c.toNat ∧ c.toNat ≤ 0x9fff))

/- ===== OCR confusion detector (reference_mapper.py:79-161) ===== -/

/-- The `ocr_to_digit` character normalization table of `is_ocr_error`. -/
def normChar (c : Char) : Char :=
  if c = 'O' ∨ c = 'o' then '0'
  else if c = 'I' ∨ c = 'i' ∨ c = 'l' then '1'
  else if c = 'Z' ∨ c = 'z' then '2'
  else if c = 'S' ∨ c = 's' then '5'
  else if c = 'G' ∨ c = 'g' then '6'
  else if c = 'B' ∨ c = 'b' then '8'
  else if c = 'D' ∨ c = 'd' then '0'
  else c

/-- The fixed `ocr_errors` confusion-pair table (reference_mapper.py:138-142). -/
def ocrPairs : List (Char × Char) :=
  [('0', 'O'), ('1', 'I'), ('1', 'l'), ('2', 'Z'),
   ('5', 'S'), ('6', 'G'), ('8', 'B'), ('0', 'D'),
   ('1', '7'), ('2', '7'), ('2', '1'), ('0', '8')]

/-- The two-difference pair test of `is_ocr_error` (lines 156-159), with
`c11 = normalized_year1[pos1]`, `c12 = normalized_year1[pos2]`,
`c21 = normalized_year2[pos1]`, `c22 = normalized_year2[pos2]`. -/
def pairCheck (c11 c12 c21 c22 : Char) : Bool :=
  ocrPairs.any fun e =>
    decide ((c11 = e.1 ∧ c21 = e.2 ∧ c12 = e.2 ∧ c22 = e.1) ∨
            (c11 = e.2 ∧ c21 = e.1 ∧ c12 = e.1 ∧ c22 = e.2))

/-- `is_ocr_error` (reference_mapper.py:79-161).  The source computes
`diff_count` and `diff_positions` by two identical `range(4)` scans; both
are the filtered index list below. -/
def is_ocr_error (year1 year2 : List Char) : Bool :=
  if year1.length ≠ 4 ∨ year2.length ≠ 4 then false
  else
    let n1 := year1.map normChar
    let n2 := year2.map normChar
    if n1 = n2 then true
    else
      let diffs := (List.range 4).filter fun i => decide (n1.getD i ' ' ≠ n2.getD i ' ')
      if diffs.length = 1 then true
      else if diffs.length = 2 then
        match diffs with
        | [p1, p2] => pairCheck (n1.getD p1 ' ') (n1.getD p2 ' ') (n2.getD p1 ' ') (n2.getD p2 ' ')
        | _ => false
      else false

/- ===== difflib.SequenceMatcher(None, a, b).ratio() =====
The source calls `SequenceMatcher(None, x, y).ratio()` (reference_mapper.py
lines 202, 345, 366, 388).  Below is a shallow embedding of the CPython
implementation for `isjunk=None` (so the junk set is empty and the two
junk-extension loops of `find_longest_match` never fire) and
`autojunk=True` (the default). -/

/-- `__chain_b`: map each character of `b` to its ascending list of indices
in `b`; when `len(b) >= 200`, characters occurring more than
`len(b)//100 + 1` times are "popular" and removed from the map. -/
def b2jFun (b : List Char) : Char → List Nat := fun c =>
  let idxs := (b.enum.filter (fun p => p.2 == c)).map Prod.fst
  if 200 ≤ b.length ∧ b.length / 100 + 1 < idxs.length then [] else idxs

/-- `j2len.get(j, 0)` on the association list modelling the dict `j2len`. -/
def lookupNat (l : List (Nat × Nat)) (j : Nat) : Nat :=
  ((l.find? (fun p => p.1 == j)).map Prod.snd).getD 0

/-- Body of the inner `for j in b2j.get(a[i], [])` loop of
`find_longest_match`; `break` on `j >= bhi` is equivalent to skipping,
because the index lists are ascending. -/
def flmInner (blo bhi i : Nat) (j2len : List (Nat × Nat))
    (acc : List (Nat × Nat) × (Nat × Nat × Nat)) (j : Nat) :
    List (Nat × Nat) × (Nat × Nat × Nat) :=
  if j < blo ∨ bhi ≤ j then acc
  else
    let k := (if j = 0 then 0 else lookupNat j2len (j - 1)) + 1
    let nj2 := (j, k) :: acc.1
    if acc.2.2.2 < k then (nj2, (i + 1 - k, j + 1 - k, k))
    else (nj2, acc.2)

/-- One iteration of the outer `for i in range(alo, ahi)` loop. -/
def flmOuter (a : List Char) (b2j : Char → List Nat) (blo bhi : Nat)
    (acc : List (Nat × Nat) × (Nat × Nat × Nat)) (i : Nat) :
    List (Nat × Nat) × (Nat × Nat × Nat) :=
  let (nj2, st) := (b2j (a.getD i ' ')).foldl (flmInner blo bhi i acc.1) ([], acc.2)
  (nj2, st)

/-- The first non-junk extension loop of `find_longest_match` ("extend
left"): with an empty junk set the guard `not isbjunk(...)` is always
true.  The fuel `bi - alo` bounds the number of decrements. -/
def extendLeftGo (a b : List Char) (alo blo : Nat) :
    Nat → Nat × Nat × Nat → Nat × Nat × Nat
  | 0, st => st
  | fuel + 1, (bi, bj, bsz) =>
    if alo < bi ∧ blo < bj ∧
       (match a.get? (bi - 1), b.get? (bj - 1) with
        | some x, some y => x == y
        | _, _ => false) = true then
      extendLeftGo a b alo blo fuel (bi - 1, bj - 1, bsz + 1)
    else (bi, bj, bsz)

/-- The second non-junk extension loop ("extend right"). -/
def extendRightGo (a b : List Char) (ahi bhi : Nat) :
    Nat → Nat × Nat × Nat → Nat × Nat × Nat
  | 0, st => st
  | fuel + 1, (bi, bj, bsz) =>
    if bi + bsz < ahi ∧ bj + bsz < bhi ∧
       (match a.get? (bi + bsz), b.get? (bj + bsz) with
        | some x, some y => x == y
        | _, _ => false) = true then
      extendRightGo a b ahi bhi fuel (bi, bj, bsz + 1)
    else (bi, bj, bsz)

/-- `SequenceMatcher.find_longest_match(alo, ahi, blo, bhi)` for
`isjunk=None`: the dynamic-programming scan followed by the two non-junk
extension loops (the two junk-extension loops are vacuous). -/
def findLongestMatch (a b : List Char) (b2j : Char → List Nat)
    (alo ahi blo bhi : Nat) : Nat × Nat × Nat :=
  let (_, st) :=
    (List.range' alo (ahi - alo)).foldl (flmOuter a b2j blo bhi) ([], (alo, blo, 0))
  let st1 := extendLeftGo a b alo blo (st.1 - alo) st
  extendRightGo a b ahi bhi (ahi - (st1.1 + st1.2.2)) st1

/-- Total size of the matching blocks found by
`SequenceMatcher.get_matching_blocks`: the recursion splits around each
longest match exactly as the source's queue does (the queue order and the
final sort/merge of adjacent blocks do not change the total size, which is
all `ratio()` consumes).  The fuel strictly exceeds the recursion depth,
since `(ahi-alo)+(bhi-blo)` decreases at every recursive call. -/
def mblockSum (a b : List Char) (b2j : Char → List Nat) :
    Nat → Nat → Nat → Nat → Nat → Nat
  | 0, _, _, _, _ => 0
  | fuel + 1, alo, ahi, blo, bhi =>
    let (i, j, k) := findLongestMatch a b b2j alo ahi blo bhi
    if k = 0 then 0
    else
      k + (if alo < i ∧ blo < j then mblockSum a b b2j fuel alo i blo j else 0)
        + (if i + k < ahi ∧ j + k < bhi then mblockSum a b b2j fuel (i + k) ahi (j + k) bhi else 0)

def matchingTotal (a b : List Char) : Nat :=
  mblockSum a b (b2jFun b) (a.length + b.length + 1) 0 a.length 0 b.length

/-- `SequenceMatcher(None, a, b).ratio()`; `_calculate_ratio` returns 1.0
when both sequences are empty. -/
def ratioFn (a b : List Char) : ℚ :=
  let total := a.length + b.length
  if total = 0 then 1 else 2 * (matchingTotal a b : ℚ) / (total : ℚ)

/- ===== Similarity scores (reference_mapper.py:164-230) ===== -/

/-- `calculate_author_match_score` (reference_mapper.py:164-203): tiers
1.0 / 0.9 / position-based 0.8–0.4 / `SequenceMatcher` ratio × 0.5. -/
def calculate_author_match_score (citation_author reference_text ref_author : List Char) : ℚ :=
  let ca := pyLower (pyStrip citation_author)
  let rt := pyLower reference_text
  let ra := pyLower (pyStrip ref_author)
  if ca = ra then 1
  else if pyIn ca ra || pyIn ra ca then 9/10
  else
    match pyFind ca rt with
    | some position =>
      if position < 100 then 4/5 else if position < 200 then 3/5 else 2/5
    | none => ratioFn ca ra * (1/2)

/-- `calculate_year_match_score` (reference_mapper.py:206-230); the
`ref_year` guard mirrors Python truthiness (`None` and `""` are falsy). -/
def calculate_year_match_score (citation_year reference_text : List Char)
    (ref_year : Option (List Char)) : ℚ :=
  match ref_year with
  | some ry =>
    if ry ≠ [] ∧ citation_year = ry then 1
    else if ry ≠ [] ∧ is_ocr_error citation_year ry then 9/10
    else if pyIn citation_year reference_text then 4/5
    else 0
  | none =>
    if pyIn citation_year reference_text then 4/5
    else 0

/- ===== Citation parsing (reference_mapper.py:233-257) ===== -/

/-- The OCR-tolerant year alphabet `[0-9OoIiZzSsGgBbDd]`. -/
def ocrYearChar (c : Char) : Bool :=
  c.isDigit || (['O', 'o', 'I', 'i', 'Z', 'z', 'S', 's', 'G', 'g', 'B', 'b', 'D', 'd'].contains c)

/-- Matcher for `（[0-9OoIiZzSsGgBbDd]{4}）` at the head of the input
(the part of pattern `^(.+?)（...）` after the author group). -/
def tryYearFW : List Char → Option (List Char)
  | '（' :: a :: b :: c :: d :: '）' :: _ =>
    if ocrYearChar a && ocrYearChar b && ocrYearChar c && ocrYearChar d then
      some [a, b, c, d]
    else none
  | _ => none

/-- Matcher for `\s*\([0-9OoIiZzSsGgBbDd]{4}\)` at the head of the input:
the greedy `\s*` is deterministic because a digit run cannot start with
whitespace and `(` is not whitespace. -/
def tryYearLatin (l : List Char) : Option (List Char) :=
  match l.dropWhile isSpace with
  | '(' :: a :: b :: c :: d :: ')' :: _ =>
    if ocrYearChar a && ocrYearChar b && ocrYearChar c && ocrYearChar d then
      some [a, b, c, d]
    else none
  | _ => none

/-- Backtracking of the anchored non-greedy author group `^(.+?)`: the
author grows one (non-newline, since `.` excludes newlines) character at a
time until the year part matches right after it. -/
def searchCiteGo (tryYear : List Char → Option (List Char)) :
    List Char → List Char → Option (List Char × List Char)
  | _, [] => none
  | acc, c :: rest =>
    if c = '\n' then none
    else
      match tryYear rest with
      | some y => some (acc ++ [c], y)
      | none => searchCiteGo tryYear (acc ++ [c]) rest

/-- `extract_author_year_from_citation` (reference_mapper.py:233-257):
try the full-width pattern, then the Latin pattern, on the stripped input;
the author group is stripped again. -/
def extract_author_year_from_citation (citation : List Char) :
    Option (List Char) × Option (List Char) :=
  let t := pyStrip citation
  match searchCiteGo tryYearFW [] t with
  | some (a, y) => (some (pyStrip a), some y)
  | none =>
    match searchCiteGo tryYearLatin [] t with
    | some (a, y) => (some (pyStrip a), some y)
    | none => (none, none)

/- ===== Reference parsing (reference_mapper.py:260-316) ===== -/

/-- `re.sub(r'^\s*\[\d+\]\s*', '', text)`: drop one leading numeric
bracket label; if the pattern does not match, the text (including its
leading whitespace) is unchanged. -/
def stripLabel (s : List Char) : List Char :=
  match s.dropWhile isSpace with
  | '[' :: r =>
    let ds := r.takeWhile Char.isDigit
    if ds = [] then s
    else
      match r.drop ds.length with
      | ']' :: r2 => r2.dropWhile isSpace
      | _ => s
  | _ => s

/-- Generic leftmost `re.search`: try the head matcher at every suffix. -/
def reSearch {α : Type} (p : List Char → Option α) : List Char → Option α
  | [] => p []
  | c :: rest => (p (c :: rest)).orElse fun _ => reSearch p rest

def isD4 (a b c d : Char) : Bool :=
  a.isDigit && b.isDigit && c.isDigit && d.isDigit

/-- Four digits at the head, followed by a tail condition. -/
def digits4Then (tail : List Char → Bool) : List Char → Option (List Char)
  | a :: b :: c :: d :: rest =>
    if isD4 a b c d && tail rest then some [a, b, c, d] else none
  | _ => none

def tailAny : List Char → Bool := fun _ => true

def tailDot : List Char → Bool
  | '.' :: _ => true
  | _ => false

def tailCommaParen : List Char → Bool
  | ',' :: _ => true
  | ')' :: _ => true
  | _ => false

/-- `\((\d{4})\)` at the head. -/
def tryYearParen : List Char → Option (List Char)
  | '(' :: a :: b :: c :: d :: ')' :: _ =>
    if isD4 a b c d then some [a, b, c, d] else none
  | _ => none

/-- `\((\d{4})\)\.` at the head. -/
def tryYearParenDot : List Char → Option (List Char)
  | '(' :: a :: b :: c :: d :: ')' :: '.' :: _ =>
    if isD4 a b c d then some [a, b, c, d] else none
  | _ => none

/-- `,\s*(\d{4})` followed by `tail` at the head; `\s*` is deterministic
(digits are not whitespace). -/
def tryYearComma (tail : List Char → Bool) : List Char → Option (List Char)
  | ',' :: rest => digits4Then tail (rest.dropWhile isSpace)
  | _ => none

/-- `:\s*(\d{4})` followed by `tail` at the head. -/
def tryYearColon (tail : List Char → Bool) : List Char → Option (List Char)
  | ':' :: rest => digits4Then tail (rest.dropWhile isSpace)
  | _ => none

/-- `\s(\d{4})` followed by `tail` at the head. -/
def tryYearSpace (tail : List Char → Bool) : List Char → Option (List Char)
  | w :: rest => if isSpace w then digits4Then tail rest else none
  | _ => none

/-- The nine prioritized year patterns of
`extract_author_year_from_reference` (reference_mapper.py:279-296):
first pattern with a match anywhere wins. -/
def refYearFromText (s : List Char) : Option (List Char) :=
  (reSearch tryYearParen s).orElse fun _ =>
  (reSearch tryYearParenDot s).orElse fun _ =>
  (reSearch (tryYearComma tailCommaParen) s).orElse fun _ =>
  (reSearch (tryYearComma tailDot) s).orElse fun _ =>
  (reSearch (tryYearComma tailAny) s).orElse fun _ =>
  (reSearch (tryYearColon tailDot) s).orElse fun _ =>
  (reSearch (tryYearColon tailAny) s).orElse fun _ =>
  (reSearch (tryYearSpace tailDot) s).orElse fun _ =>
  reSearch (tryYearSpace tailAny) s

/-- `re.sub(r'等$', '', author)`: one trailing `等`. -/
def dropSuffixDeng (l : List Char) : List Char :=
  if l.getLast? = some '等' then l.dropLast else l

/-- `re.sub(r'et al\.?$', '', author)` (case-sensitive): greedy optional
dot, anchored at the end. -/
def dropSuffixEtAl (l : List Char) : List Char :=
  if ("et al.".toList).isSuffixOf l then l.take (l.length - 6)
  else if ("et al".toList).isSuffixOf l then l.take (l.length - 5)
  else l

/-- Author part of `extract_author_year_from_reference`
(reference_mapper.py:298-314): prefix before the first ASCII `.`/`,`,
first comma-separated name (full-width comma checked first), suffixes
`等` and `et al` removed.  Returns `some []` when the steps leave an empty
(Python-falsy) string, `none` when `re.search(r'^([^.,]+)')` fails. -/
def refAuthorFromText (s : List Char) : Option (List Char) :=
  let raw := s.takeWhile fun c => decide (c ≠ '.' ∧ c ≠ ',')
  if raw = [] then none
  else
    let a0 := pyStrip raw
    let a1 :=
      if a0 ≠ [] ∧ ('，' ∈ a0 ∨ ',' ∈ a0) then
        if '，' ∈ a0 then pyStrip (takeBeforeChar a0 '，')
        else pyStrip (takeBeforeChar a0 ',')
      else a0
    let a2 :=
      if a1 ≠ [] then pyStrip (dropSuffixEtAl (pyStrip (dropSuffixDeng a1)))
      else a1
    some a2

/-- `extract_author_year_from_reference` (reference_mapper.py:260-316),
returning `(author, year)`. -/
def extract_author_year_from_reference (reference_text : List Char) :
    Option (List Char) × Option (List Char) :=
  let clean := stripLabel reference_text
  (refAuthorFromText clean, refYearFromText clean)

/- ===== Matching loop (reference_mapper.py:11-76) ===== -/

/-- Result dictionary of `map_author_year_citation_to_reference`; the
matched reference dict (a Python object) is identified by its index in
the reference list. -/
structure MapResult where
  reference : Nat
  corrected_citation : List Char
  original_citation : List Char
  deriving DecidableEq

/-- The `for ref in references` loop (reference_mapper.py:33-56),
carrying `(best_match × best_ref_year, best_score)`; references whose
extracted author is falsy are skipped (`continue`). -/
def mapLoop (ca cy : List Char) :
    List (List Char) → Nat → Option (Nat × Option (List Char)) → ℚ →
    Option (Nat × Option (List Char)) × ℚ
  | [], _, best, bs => (best, bs)
  | r :: rest, i, best, bs =>
    match extract_author_year_from_reference r with
    | (some ra, ry) =>
      if ra = [] then mapLoop ca cy rest (i + 1) best bs
      else
        let s := calculate_author_match_score ca r ra * (3/5) +
                 calculate_year_match_score cy r ry * (2/5)
        if bs < s then mapLoop ca cy rest (i + 1) (some (i, ry)) s
        else mapLoop ca cy rest (i + 1) best bs
    | (none, _) => mapLoop ca cy rest (i + 1) best bs

/-- `map_author_year_citation_to_reference` (reference_mapper.py:11-76). -/
def map_author_year_citation_to_reference (citation : List Char)
    (references : List (List Char)) : Option MapResult :=
  match extract_author_year_from_citation citation with
  | (some ca, some cy) =>
    if ca = [] ∨ cy = [] then none
    else
      match mapLoop ca cy references 0 none 0 with
      | (some (idx, ry), bs) =>
        if 3/10 < bs then
          match ry with
          | some y =>
            if y ≠ [] ∧ cy ≠ [] ∧ y ≠ cy then
              some ⟨idx, ca ++ '（' :: (y ++ ['）']), citation⟩
            else some ⟨idx, citation, citation⟩
          | none => some ⟨idx, citation, citation⟩
        else none
      | (none, _) => none
  | _ => none

/-- Combined score of one reference against a parsed citation, `none` for
references the loop skips; used to state the claims about the matcher. -/
def refCombinedScore (ca cy : List Char) (r : List Char) : Option ℚ :=
  match extract_author_year_from_reference r with
  | (some ra, ry) =>
    if ra = [] then none
    else some (calculate_author_match_score ca r ra * (3/5) +
               calculate_year_match_score cy r ry * (2/5))
  | (none, _) => none

/- ===== Author-name helpers (reference_mapper.py:440-492) ===== -/

/-- `is_english_name` (reference_mapper.py:440-449): explicit `None`
check returning `False`, else the regex `^[A-Za-z\s.,]+$`. -/
def is_english_name : Option (List Char) → Bool
  | none => false
  | some name =>
    decide (name ≠ []) && name.all fun c => c.isAlpha || isSpace c || c == '.' || c == ','

/-- One attempt of the IGNORECASE pattern `\s+et\s+al\.?` at the head of
the input; on success returns the rest after the match.  Greedy `\s+` is
deterministic: letters are not whitespace. -/
def tryEtAl (l : List Char) : Option (List Char) :=
  let w1 := l.takeWhile isSpace
  if w1 = [] then none
  else
    match l.drop w1.length with
    | e :: t :: r2 =>
      if e.toLower = 'e' ∧ t.toLower = 't' then
        let w2 := r2.takeWhile isSpace
        if w2 = [] then none
        else
          match r2.drop w2.length with
          | a :: bl :: r3 =>
            if a.toLower = 'a' ∧ bl.toLower = 'l' then
              some (match r3 with
                    | '.' :: r4 => r4
                    | _ => r3)
            else none
          | _ => none
      else none
    | _ => none

/-- One attempt of the pattern `\s+等` at the head of the input. -/
def tryDeng (l : List Char) : Option (List Char) :=
  let w1 := l.takeWhile isSpace
  if w1 = [] then none
  else
    match l.drop w1.length with
    | '等' :: r => some r
    | _ => none

/-- `re.sub(pattern, '', s)` driven by a head matcher: leftmost,
non-overlapping, repeated.  Every step consumes at least one character,
so fuel `s.length` suffices. -/
def subScan (try1 : List Char → Option (List Char)) : Nat → List Char → List Char
  | 0, l => l
  | _ + 1, [] => []
  | fuel + 1, c :: rest =>
    match try1 (c :: rest) with
    | some r2 => subScan try1 fuel r2
    | none => c :: subScan try1 fuel rest

def subEtAl (l : List Char) : List Char := subScan tryEtAl l.length l

def subDeng (l : List Char) : List Char := subScan tryDeng l.length l

def dutchPrefixes : List (List Char) :=
  ["van".toList, "den".toList, "de".toList, "der".toList,
   "ter".toList, "ten".toList, "vanden".toList, "vander".toList]

/-- `extract_surname` (reference_mapper.py:452-492): `None` becomes the
empty string; `et al.`/`等` are removed; Dutch compound prefixes attach
to the final token; a trailing lone initial selects the previous token. -/
def extract_surname (name : Option (List Char)) : List Char :=
  match name with
  | none => []
  | some name0 =>
    let n1 := pyStrip (subEtAl name0)
    let n2 := pyStrip (subDeng n1)
    let parts := pySplit n2
    match parts with
    | [] => n2
    | _ =>
      let p1 := parts.getLastD []
      let p2 := parts.dropLast.getLastD []
      let p3 := parts.dropLast.dropLast.getLastD []
      if 2 ≤ parts.length ∧ pyLower p2 ∈ dutchPrefixes then
        p2 ++ ' ' :: p1
      else if 2 ≤ parts.length ∧ 3 ≤ parts.length ∧ pyLower p3 ∈ dutchPrefixes ∧
              pyLower p2 ∈ dutchPrefixes then
        p3 ++ ' ' :: (p2 ++ ' ' :: p1)
      else if p1.length = 1 ∨ (p1.length = 2 ∧ p1.getD 1 ' ' = '.') then
        (if 1 < parts.length then p2 else p1)
      else p1

/-- `calculate_author_similarity` (reference_mapper.py:319-423): `None`
inputs become the empty string (the function's own guard), then the
ratio with a cascade of max-raising special cases. -/
def calculate_author_similarity (author1 author2 : Option (List Char)) : ℚ :=
  let a1 := pyLower (pyStrip (author1.getD []))
  let a2 := pyLower (pyStrip (author2.getD []))
  if a1 = a2 then 1
  else
    let sim0 := ratioFn a1 a2
    let sim1 := if pyIn a1 a2 || pyIn a2 a1 then max sim0 (9/10) else sim0
    let sim2 :=
      if is_english_name (some a1) && is_english_name (some a2) then
        let s1 := extract_surname (some a1)
        let s2 := extract_surname (some a2)
        if s1 = s2 then max sim1 (19/20)
        else if pyIn s1 s2 || pyIn s2 s1 then max sim1 (9/10)
        else sim1
      else sim1
    let sim3 :=
      if (a1.contains '&' || pyIn ("and".toList) a1) &&
         !(a2.contains '&' || pyIn ("and".toList) a2) then
        let f := pyStrip (takeBeforeSub (takeBeforeChar a1 '&') ("and".toList))
        let fsim := ratioFn f a2
        if sim2 < fsim then
          let t2 := if pyIn f a2 || pyIn a2 f then max fsim (9/10) else fsim
          if is_english_name (some f) then
            let fs := extract_surname (some f)
            let ss := extract_surname (some a2)
            if fs = ss then max t2 (19/20)
            else if pyIn fs ss || pyIn ss fs then max t2 (9/10)
            else t2
          else t2
        else sim2
      else sim2
    let sim4 :=
      if (a2.contains '&' || pyIn ("and".toList) a2) &&
         !(a1.contains '&' || pyIn ("and".toList) a1) then
        let f := pyStrip (takeBeforeSub (takeBeforeChar a2 '&') ("and".toList))
        let fsim := ratioFn a1 f
        if sim3 < fsim then
          let t2 := if pyIn f a1 || pyIn a1 f then max fsim (9/10) else fsim
          if is_english_name (some f) then
            let fs := extract_surname (some a1)
            let ss := extract_surname (some f)
            if fs = ss then max t2 (19/20)
            else if pyIn fs ss || pyIn ss fs then max t2 (9/10)
            else t2
          else t2
        else sim3
      else sim3
    let sim5 :=
      if a2.contains ',' && a2.contains '.' then
        let rs := pyLower (pyStrip (takeBeforeChar a2 ','))
        if rs = a1 then max sim4 (19/20)
        else if pyIn rs a1 || pyIn a1 rs then max sim4 (9/10)
        else sim4
      else sim4
    if a1.contains ',' && a1.contains '.' then
      let cs := pyLower (pyStrip (takeBeforeChar a1 ','))
      if cs = a2 then max sim5 (19/20)
      else if pyIn cs a2 || pyIn a2 cs then max sim5 (9/10)
      else sim5
    else sim5

/- ===== None-propagation wrappers (claim about MalformedInput) ===== -/

/-- Calling `extract_author_year_from_citation(None)` evaluates
`citation.strip()` (reference_mapper.py:244) on `None`, raising
`AttributeError`; a string returns normally.  The raised exception is
modelled as `Except.error`. -/
def extract_author_year_from_citation_py (citation : Option (List Char)) :
    Except (List Char) (Option (List Char) × Option (List Char)) :=
  match citation with
  | none => Except.error ("AttributeError".toList)
  | some s => Except.ok (extract_author_year_from_citation s)

/-- `map_author_year_citation_to_reference(None, refs)` raises the same
`AttributeError` through its first call (reference_mapper.py:23). -/
def map_author_year_citation_to_reference_py (citation : Option (List Char))
    (references : List (List Char)) : Except (List Char) (Option MapResult) :=
  match citation with
  | none => Except.error ("AttributeError".toList)
  | some s => Except.ok (map_author_year_citation_to_reference s references)

/- ===== citation_extractor.py ===== -/

/-- `extract_chinese_authors` (citation_extractor.py:31-54): the segment
before the first ASCII `.` (regex `^([^\.]+?)\.` — a match needs a
nonempty prefix and a dot), split on `，` or `,`, stripped, empty pieces
and the bare word `等` dropped. -/
def extract_chinese_authors (reference_text : List Char) : List (List Char) :=
  let pre := reference_text.takeWhile fun c => decide (c ≠ '.')
  if pre = [] ∨ pre.length = reference_text.length then []
  else
    let authors :=
      if '，' ∈ pre then
        ((splitOnCharCL '，' pre).map pyStrip).filter fun p => decide (p ≠ [])
      else if ',' ∈ pre then
        ((splitOnCharCL ',' pre).map pyStrip).filter fun p => decide (p ≠ [])
      else [pyStrip pre]
    authors.filter fun a => decide (a ≠ ['等'])

/- ===== citation_formatter.py ===== -/

/-- `CitationFormatter._extract_surname` (citation_formatter.py:275-300):
segment before a comma if present, else the last whitespace token. -/
def fmtExtractSurname (author : List Char) : List Char :=
  let a := pyStrip author
  if a.contains ',' then pyStrip (takeBeforeChar a ',')
  else
    match pySplit a with
    | [] => a
    | [p] => p
    | parts => parts.getLastD []

/-- `CitationFormatter._format_chinese_academy_of_sciences`
(citation_formatter.py:63-100), the default compact author+year style. -/
def format_chinese_academy_of_sciences (authors : List (List Char)) (year : List Char) :
    List Char :=
  match authors with
  | [] => '（' :: (year ++ ['）'])
  | a0 :: rest =>
    if contains_chinese a0 then
      if (a0 :: rest).length > 1 then a0 ++ (" 等（".toList) ++ year ++ ("）".toList)
      else a0 ++ ("（".toList) ++ year ++ ("）".toList)
    else
      let surnames := (a0 :: rest).map fmtExtractSurname
      let s0 := surnames.headD []
      if surnames.length = 1 ∧ ((pySplit s0).length > 2 ∨ pyIsUpper s0) then
        s0 ++ ("（".toList) ++ year ++ ("）".toList)
      else if surnames.length > 2 then
        s0 ++ (" et al.（".toList) ++ year ++ ("）".toList)
      else if surnames.length = 2 then
        s0 ++ (" & ".toList) ++ surnames.getLastD [] ++ ("（".toList) ++ year ++ ("）".toList)
      else
        s0 ++ ("（".toList) ++ year ++ ("）".toList)

/- ===== citation_analyzer.py (analyze_document, lines 66-90, 197-199) ===== -/

/-- `re.search(r'^\[\d+\]', text)`: the leading numeric bracket label. -/
def numericLabel (s : List Char) : Option (List Char) :=
  match s with
  | '[' :: r =>
    let ds := r.takeWhile Char.isDigit
    if ds = [] then none
    else
      match r.drop ds.length with
      | ']' :: _ => some ('[' :: (ds ++ [']']))
      | _ => none
  | _ => none

/-- Numeric branch of the analyzer loop (citation_analyzer.py:80-90):
first reference whose leading label equals the citation text. -/
def findNumericIdx (citation : List Char) : List (List Char) → Nat → Option Nat
  | [], _ => none
  | r :: rest, i =>
    match numericLabel r with
    | some lab => if lab = citation then some i else findNumericIdx citation rest (i + 1)
    | none => findNumericIdx citation rest (i + 1)

/-- One iteration of the analyzer's citation loop
(citation_analyzer.py:66-90), returning the index of the selected
reference.  `citation[6:-1]` is `drop 6` then `dropLast`; note the source
calls the author-year mapper only when the citation starts with the
7-character prefix `[AUTH:]`. -/
def analyzerSelect (references : List (List Char)) (citation : List Char) : Option Nat :=
  let actual :=
    if ("[AUTH:".toList).isPrefixOf citation then (citation.drop 6).dropLast else citation
  if ("[AUTH:]".toList).isPrefixOf citation then
    (map_author_year_citation_to_reference actual references).map MapResult.reference
  else
    findNumericIdx citation references 0

/-- Indices selected by some citation (the analyzer's
`all_mapping_results`, keeping only the matched reference of each). -/
def analyzerSelections (citations references : List (List Char)) : List Nat :=
  citations.filterMap (analyzerSelect references)

/-- `unused_references` (citation_analyzer.py:197-199): the used set is
keyed by reference *text*, and a reference is kept when its text is not
in that set. -/
def analyzer_unused_references (citations references : List (List Char)) :
    List (List Char) :=
  let used := (analyzerSelections citations references).filterMap references.get?
  references.filter fun r => decide (¬ r ∈ used)

theorem exists_four (l : List Char) (h : l.length = 4) : ∃ a b c d, l = [a, b, c, d] := by
  match l with
  | [a, b, c, d] => exact ⟨a, b, c, d, rfl⟩
  | [] => simp at h
  | [_] => simp at h
  | [_, _] => simp at h
  | [_, _, _] => simp at h
  | _ :: _ :: _ :: _ :: _ :: _ => simp at h

def pairRealized (c11 c12 c21 c22 : Char) : Prop :=
  ∃ e ∈ ocrPairs,
    ((c11 = e.1 ∧ c21 = e.2) ∨ (c11 = e.2 ∧ c21 = e.1)) ∧
    ((c12 = e.1 ∧ c22 = e.2) ∨ (c12 = e.2 ∧ c22 = e.1))

theorem pairCheck_realizes {c11 c12 c21 c22 : Char}
    (h : pairCheck c11 c12 c21 c22 = true) : pairRealized c11 c12 c21 c22 := by
  rcases List.any_eq_true.mp h with ⟨e, he, hd⟩
  rw [decide_eq_true_iff] at hd
  exact ⟨e, he, by tauto⟩

def diffPositions (y1 y2 : List Char) : List Nat :=
  (List.range 4).filter fun i =>
    decide ((y1.map normChar).getD i ' ' ≠ (y2.map normChar).getD i ' ')

/-- Claim C3: the OCR-confusion detector returns false unless both year
strings have length 4; on 4-character inputs it normalizes both strings
position-wise with the O/o/D/d→0, I/i/l→1, Z/z→2, S/s→5, G/g→6, B/b→8
table, returns true when the normalized strings are equal or differ in
exactly one position, returns true on exactly two differing positions
only when the characters there realize one of the fixed confusion pairs,
and returns false on three or more differing positions. -/
theorem is_ocr_error_spec (y1 y2 : List Char) :
    (¬(y1.length = 4 ∧ y2.length = 4) → is_ocr_error y1 y2 = false) ∧
    (y1.length = 4 → y2.length = 4 →
      (y1.map normChar = y2.map normChar → is_ocr_error y1 y2 = true) ∧
      ((diffPositions y1 y2).length = 1 → is_ocr_error y1 y2 = true) ∧
      (∀ p1 p2, diffPositions y1 y2 = [p1, p2] → is_ocr_error y1 y2 = true →
        pairRealized ((y1.map normChar).getD p1 ' ') ((y1.map normChar).getD p2 ' ')
          ((y2.map normChar).getD p1 ' ') ((y2.map normChar).getD p2 ' ')) ∧
      (3 ≤ (diffPositions y1 y2).length → is_ocr_error y1 y2 = false)) := by
  constructor
  · intro hlen
    have hd : y1.length ≠ 4 ∨ y2.length ≠ 4 := by tauto
    simp [is_ocr_error, hd]
  · intro hl1 hl2
    obtain ⟨a, b, c, d, rfl⟩ := exists_four y1 hl1
    obtain ⟨e, f, g, h, rfl⟩ := exists_four y2 hl2
    by_cases h1 : normChar a = normChar e <;>
    by_cases h2 : normChar b = normChar f <;>
    by_cases h3 : normChar c = normChar g <;>
    by_cases h4 : normChar d = normChar h <;>
    refine ⟨?_, ?_, ?_, ?_⟩ <;>
      simp [is_ocr_error, diffPositions, List.range_succ, h1, h2, h3, h4]
    all_goals exact fun hpc => pairCheck_realizes hpc


theorem any_congr {α : Type} {p q : α → Bool} :
    ∀ (l : List α), (∀ a ∈ l, p a = q a) → l.any p = l.any q
  | [], _ => rfl
  | a :: l, h => by
    simp only [List.any_cons]
    rw [h a (List.mem_cons_self a l), any_congr l fun b hb => h b (List.mem_cons_of_mem a hb)]

theorem pairCheck_symm (c11 c12 c21 c22 : Char) :
    pairCheck c11 c12 c21 c22 = pairCheck c21 c22 c11 c12 := by
  unfold pairCheck
  refine any_congr ocrPairs fun e _ => ?_
  rw [decide_eq_decide]
  tauto

/-- Claim C10: `is_ocr_error` is symmetric in its two arguments, including
in the two-differing-positions case that consults the confusion-pair
table. -/
theorem is_ocr_error_symm (y1 y2 : List Char) :
    is_ocr_error y1 y2 = is_ocr_error y2 y1 := by
  by_cases hl : y1.length = 4 ∧ y2.length = 4
  · obtain ⟨hl1, hl2⟩ := hl
    obtain ⟨a, b, c, d, rfl⟩ := exists_four y1 hl1
    obtain ⟨e, f, g, h, rfl⟩ := exists_four y2 hl2
    by_cases h1 : normChar a = normChar e <;>
    by_cases h2 : normChar b = normChar f <;>
    by_cases h3 : normChar c = normChar g <;>
    by_cases h4 : normChar d = normChar h <;>
      simp [is_ocr_error, List.range_succ, h1, h2, h3, h4, eq_comm]
    all_goals apply pairCheck_symm
  · have hx : y1.length ≠ 4 ∨ y2.length ≠ 4 := by tauto
    have hy : y2.length ≠ 4 ∨ y1.length ≠ 4 := by tauto
    simp [is_ocr_error, hx, hy]

/-- Claim C2: with the citation author and reference author case-folded
and stripped and the reference text case-folded, the author score is 1.0
on equality, else 0.9 when one author is a substring of the other, else
0.8/0.6/0.4 by the position of the citation author's first literal
occurrence in the reference text (before index 100, before 200, later),
else the `SequenceMatcher` similarity ratio of the two author strings
times 0.5; the year score is 1.0 on exact equality with the extracted
reference year, 0.9 on an OCR-confusable pair, 0.8 when the citation year
occurs literally anywhere in the (raw) reference text, and 0.0 otherwise.
The hypothesis excludes the Python-falsy empty extracted year, which the
extractor never produces. -/
theorem author_year_score_spec (ca rt ra cy : List Char) (ry : Option (List Char))
    (hry : ry ≠ some []) :
    ((pyLower (pyStrip ca) = pyLower (pyStrip ra) →
        calculate_author_match_score ca rt ra = 1) ∧
     (pyLower (pyStrip ca) ≠ pyLower (pyStrip ra) →
      (pyIn (pyLower (pyStrip ca)) (pyLower (pyStrip ra)) ||
       pyIn (pyLower (pyStrip ra)) (pyLower (pyStrip ca))) = true →
        calculate_author_match_score ca rt ra = 9/10) ∧
     (pyLower (pyStrip ca) ≠ pyLower (pyStrip ra) →
      (pyIn (pyLower (pyStrip ca)) (pyLower (pyStrip ra)) ||
       pyIn (pyLower (pyStrip ra)) (pyLower (pyStrip ca))) = false →
      (∀ p, pyFind (pyLower (pyStrip ca)) (pyLower rt) = some p →
        (p < 100 → calculate_author_match_score ca rt ra = 4/5) ∧
        (100 ≤ p → p < 200 → calculate_author_match_score ca rt ra = 3/5) ∧
        (200 ≤ p → calculate_author_match_score ca rt ra = 2/5)) ∧
      (pyFind (pyLower (pyStrip ca)) (pyLower rt) = none →
        calculate_author_match_score ca rt ra =
          ratioFn (pyLower (pyStrip ca)) (pyLower (pyStrip ra)) * (1/2)))) ∧
    ((ry = some cy → calculate_year_match_score cy rt ry = 1) ∧
     (∀ y, ry = some y → cy ≠ y → is_ocr_error cy y = true →
        calculate_year_match_score cy rt ry = 9/10) ∧
     ((ry = none ∨ ∃ y, ry = some y ∧ cy ≠ y ∧ is_ocr_error cy y = false) →
        (pyIn cy rt = true → calculate_year_match_score cy rt ry = 4/5) ∧
        (pyIn cy rt = false → calculate_year_match_score cy rt ry = 0))) := by
  refine ⟨⟨?_, ?_, ?_⟩, ?_, ?_, ?_⟩
  · intro heq
    simp [calculate_author_match_score, heq]
  · intro hne hsub
    simp [calculate_author_match_score, hne, hsub]
  · intro hne hsub
    constructor
    · intro p hp
      refine ⟨?_, ?_, ?_⟩
      · intro hlt
        simp [calculate_author_match_score, hne, hsub, hp, hlt]
      · intro hge hlt
        have hn : ¬ p < 100 := by omega
        simp [calculate_author_match_score, hne, hsub, hp, hn, hlt]
      · intro hge
        have hn1 : ¬ p < 100 := by omega
        have hn2 : ¬ p < 200 := by omega
        simp [calculate_author_match_score, hne, hsub, hp, hn1, hn2]
    · intro hp
      simp [calculate_author_match_score, hne, hsub, hp]
  · intro heq
    subst heq
    have hcy : cy ≠ [] := fun h => hry (by simp [h])
    simp [calculate_year_match_score, hcy]
  · intro y hy hne hocr
    subst hy
    have hynil : y ≠ [] := fun h => hry (by simp [h])
    simp [calculate_year_match_score, hynil, hocr, hne]
  · intro hcase
    rcases hcase with hnone | ⟨y, hy, hne, hocr⟩
    · subst hnone
      constructor <;> intro hin <;> simp [calculate_year_match_score, hin]
    · subst hy
      have hynil : y ≠ [] := fun h => hry (by simp [h])
      constructor <;> intro hin <;>
        simp [calculate_year_match_score, hin, hocr, hne]

theorem mapLoop_char (ca cy : List Char) :
    ∀ (rs : List (List Char)) (i0 : Nat) (best : Option (Nat × Option (List Char))) (bs : ℚ),
      (mapLoop ca cy rs i0 best bs = (best, bs) ∧
        ∀ j (hj : j < rs.length) q, refCombinedScore ca cy (rs.get ⟨j, hj⟩) = some q → q ≤ bs)
      ∨
      (∃ j, ∃ (hj : j < rs.length), ∃ M,
        refCombinedScore ca cy (rs.get ⟨j, hj⟩) = some M ∧ bs < M ∧
        (∀ k (hk : k < rs.length) q, refCombinedScore ca cy (rs.get ⟨k, hk⟩) = some q → q ≤ M) ∧
        (∀ k (hk : k < j) q,
          refCombinedScore ca cy (rs.get ⟨k, Nat.lt_trans hk hj⟩) = some q → q < M) ∧
        mapLoop ca cy rs i0 best bs =
          (some (i0 + j, (extract_author_year_from_reference (rs.get ⟨j, hj⟩)).2), M)) := by
  intro rs
  induction rs with
  | nil =>
    intro i0 best bs
    left
    exact ⟨rfl, fun j hj => absurd hj (by simp)⟩
  | cons r rest ih =>
    intro i0 best bs
    rcases hre : extract_author_year_from_reference r with ⟨ra?, ry⟩
    rcases ra? with _ | ra
    · -- author extraction failed: reference skipped
      have hstep : mapLoop ca cy (r :: rest) i0 best bs = mapLoop ca cy rest (i0 + 1) best bs := by
        simp [mapLoop, hre]
      have hscore : refCombinedScore ca cy r = none := by
        simp [refCombinedScore, hre]
      rcases ih (i0 + 1) best bs with ⟨heq, hall⟩ | ⟨j, hj, M, hsc, hlt, hmax, hfirst, heq⟩
      · left
        refine ⟨hstep.trans heq, ?_⟩
        intro j hj q hq
        rcases j with _ | j
        · rw [List.get] at hq; rw [hscore] at hq; exact absurd hq (by simp)
        · exact hall j (by simpa using hj) q hq
      · right
        refine ⟨j + 1, by simpa using hj, M, hsc, hlt, ?_, ?_, ?_⟩
        · intro k hk q hq
          rcases k with _ | k
          · rw [List.get] at hq; rw [hscore] at hq; exact absurd hq (by simp)
          · exact hmax k (by simpa using hk) q hq
        · intro k hk q hq
          rcases k with _ | k
          · rw [List.get] at hq; rw [hscore] at hq; exact absurd hq (by simp)
          · exact hfirst k (by omega) q hq
        · rw [hstep, heq]
          have hidx : i0 + 1 + j = i0 + (j + 1) := by omega
          rw [hidx]
          rfl
    · by_cases hnil : ra = []
      · -- empty author: also skipped
        subst hnil
        have hstep : mapLoop ca cy (r :: rest) i0 best bs = mapLoop ca cy rest (i0 + 1) best bs := by
          simp [mapLoop, hre]
        have hscore : refCombinedScore ca cy r = none := by
          simp [refCombinedScore, hre]
        rcases ih (i0 + 1) best bs with ⟨heq, hall⟩ | ⟨j, hj, M, hsc, hlt, hmax, hfirst, heq⟩
        · left
          refine ⟨hstep.trans heq, ?_⟩
          intro j hj q hq
          rcases j with _ | j
          · rw [List.get] at hq; rw [hscore] at hq; exact absurd hq (by simp)
          · exact hall j (by simpa using hj) q hq
        · right
          refine ⟨j + 1, by simpa using hj, M, hsc, hlt, ?_, ?_, ?_⟩
          · intro k hk q hq
            rcases k with _ | k
            · rw [List.get] at hq; rw [hscore] at hq; exact absurd hq (by simp)
            · exact hmax k (by simpa using hk) q hq
          · intro k hk q hq
            rcases k with _ | k
            · rw [List.get] at hq; rw [hscore] at hq; exact absurd hq (by simp)
            · exact hfirst k (by omega) q hq
          · rw [hstep, heq]
            have hidx : i0 + 1 + j = i0 + (j + 1) := by omega
            rw [hidx]
            rfl
      · -- scored reference
        set s := calculate_author_match_score ca r ra * (3/5) +
                 calculate_year_match_score cy r ry * (2/5) with hs
        have hscore : refCombinedScore ca cy r = some s := by
          simp [refCombinedScore, hre, hnil, hs]
        by_cases hlt0 : bs < s
        · have hstep : mapLoop ca cy (r :: rest) i0 best bs =
              mapLoop ca cy rest (i0 + 1) (some (i0, ry)) s := by
            simp [mapLoop, hre, hnil, ← hs, hlt0]
          rcases ih (i0 + 1) (some (i0, ry)) s with ⟨heq, hall⟩ | ⟨j, hj, M, hsc, hlt, hmax, hfirst, heq⟩
          · right
            refine ⟨0, by simp, s, ?_, hlt0, ?_, ?_, ?_⟩
            · rw [List.get]; exact hscore
            · intro k hk q hq
              rcases k with _ | k
              · rw [List.get] at hq; rw [hscore] at hq
                have hqs : q = s := by simpa using hq.symm
                exact le_of_eq hqs
              · exact hall k (by simpa using hk) q hq
            · intro k hk q hq
              exact absurd hk (by omega)
            · rw [hstep, heq, Nat.add_zero]
              have hry : (extract_author_year_from_reference ((r :: rest).get ⟨0, by simp⟩)).2 = ry := by
                rw [List.get, hre]
              rw [hry]
          · right
            have hsM : s < M := hlt
            refine ⟨j + 1, by simpa using hj, M, hsc, lt_trans hlt0 hsM, ?_, ?_, ?_⟩
            · intro k hk q hq
              rcases k with _ | k
              · rw [List.get] at hq; rw [hscore] at hq
                have hqs : q = s := by simpa using hq.symm
                exact le_of_lt (hqs ▸ hsM)
              · exact hmax k (by simpa using hk) q hq
            · intro k hk q hq
              rcases k with _ | k
              · rw [List.get] at hq; rw [hscore] at hq
                have hqs : q = s := by simpa using hq.symm
                exact hqs ▸ hsM
              · exact hfirst k (by omega) q hq
            · rw [hstep, heq]
              have hidx : i0 + 1 + j = i0 + (j + 1) := by omega
              rw [hidx]
              rfl
        · have hstep : mapLoop ca cy (r :: rest) i0 best bs = mapLoop ca cy rest (i0 + 1) best bs := by
            simp [mapLoop, hre, hnil, ← hs, hlt0]
          have hsle : s ≤ bs := le_of_not_lt hlt0
          rcases ih (i0 + 1) best bs with ⟨heq, hall⟩ | ⟨j, hj, M, hsc, hlt, hmax, hfirst, heq⟩
          · left
            refine ⟨hstep.trans heq, ?_⟩
            intro j hj q hq
            rcases j with _ | j
            · rw [List.get] at hq; rw [hscore] at hq
              have hqs : q = s := by simpa using hq.symm
              exact hqs ▸ hsle
            · exact hall j (by simpa using hj) q hq
          · right
            refine ⟨j + 1, by simpa using hj, M, hsc, hlt, ?_, ?_, ?_⟩
            · intro k hk q hq
              rcases k with _ | k
              · rw [List.get] at hq; rw [hscore] at hq
                have hqs : q = s := by simpa using hq.symm
                exact hqs ▸ le_of_lt (lt_of_le_of_lt hsle hlt)
              · exact hmax k (by simpa using hk) q hq
            · intro k hk q hq
              rcases k with _ | k
              · rw [List.get] at hq; rw [hscore] at hq
                have hqs : q = s := by simpa using hq.symm
                exact hqs ▸ lt_of_le_of_lt hsle hlt
              · exact hfirst k (by omega) q hq
            · rw [hstep, heq]
              have hidx : i0 + 1 + j = i0 + (j + 1) := by omega
              rw [hidx]
              rfl

theorem dropWhile_head_not {p : Char → Bool} :
    ∀ (l : List Char) (c : Char), (l.dropWhile p).head? = some c → p c = false
  | [], c, h => by simp at h
  | a :: t, c, h => by
    by_cases hp : p a
    · rw [List.dropWhile_cons_of_pos hp] at h
      exact dropWhile_head_not t c h
    · rw [List.dropWhile_cons_of_neg hp] at h
      simp at h
      subst h
      exact Bool.eq_false_iff.mpr hp

theorem reverse_dropWhile_head {p : Char → Bool} (y : List Char) (c : Char)
    (h : ((y.reverse.dropWhile p).reverse).head? = some c) : y.head? = some c := by
  obtain ⟨t, ht⟩ := List.dropWhile_suffix (l := y.reverse) (p := p)
  have hy : y = (y.reverse.dropWhile p).reverse ++ t.reverse := by
    have := congrArg List.reverse ht
    simpa [List.reverse_append] using this.symm
  rw [hy, List.head?_append, h]
  rfl

theorem pyStrip_head_not_space (l : List Char) (c : Char)
    (h : (pyStrip l).head? = some c) : isSpace c = false := by
  unfold pyStrip at h
  have h2 := reverse_dropWhile_head (l.dropWhile isSpace) c h
  exact dropWhile_head_not l c (by rw [h2])

theorem pyStrip_ne_nil_of_head (l : List Char) (c : Char)
    (hh : l.head? = some c) (hc : isSpace c = false) : pyStrip l ≠ [] := by
  intro hnil
  unfold pyStrip at hnil
  have h1 : l.dropWhile isSpace = l := by
    cases l with
    | nil => simp at hh
    | cons a t =>
      simp at hh
      subst hh
      exact List.dropWhile_cons_of_neg (by simp [hc])
  rw [h1] at hnil
  have h2 : l.reverse.dropWhile isSpace = [] := by
    have := congrArg List.reverse hnil
    simpa using this
  rw [List.dropWhile_eq_nil_iff] at h2
  have hcmem : c ∈ l.reverse := by
    rw [List.mem_reverse]
    exact List.mem_of_mem_head? hh
  have := h2 c hcmem
  rw [hc] at this
  exact Bool.false_ne_true this

theorem searchCiteGo_shape (tryYear : List Char → Option (List Char)) :
    ∀ (l acc a y : List Char), searchCiteGo tryYear acc l = some (a, y) →
      ∃ p rest2, l = p ++ rest2 ∧ p ≠ [] ∧ a = acc ++ p ∧ ∃ l2, tryYear l2 = some y
  | [], acc, a, y, h => by simp [searchCiteGo] at h
  | c :: rest, acc, a, y, h => by
    rw [searchCiteGo] at h
    by_cases hnl : c = '\n'
    · rw [if_pos hnl] at h; exact absurd h (by simp)
    · rw [if_neg hnl] at h
      rcases hty : tryYear rest with _ | y2
      · rw [hty] at h
        obtain ⟨p, rest2, hl, hp, ha, hy2⟩ := searchCiteGo_shape tryYear rest (acc ++ [c]) a y h
        exact ⟨c :: p, rest2, by simp [hl], by simp, by simpa using ha, hy2⟩
      · rw [hty] at h
        simp at h
        obtain ⟨ha, hy⟩ := h
        exact ⟨[c], rest, rfl, by simp, by simp [ha.symm], rest, by rw [hty, hy]⟩

theorem tryYearFW_len (l y : List Char) (h : tryYearFW l = some y) : y.length = 4 := by
  unfold tryYearFW at h
  split at h
  · split at h
    · simp at h; subst h; rfl
    · exact absurd h (by simp)
  · exact absurd h (by simp)

theorem tryYearLatin_len (l y : List Char) (h : tryYearLatin l = some y) : y.length = 4 := by
  unfold tryYearLatin at h
  split at h
  · split at h
    · simp at h; subst h; rfl
    · exact absurd h (by simp)
  · exact absurd h (by simp)

theorem extract_citation_shape (citation ca cy : List Char)
    (h : extract_author_year_from_citation citation = (some ca, some cy)) :
    ca ≠ [] ∧ cy.length = 4 := by
  simp only [extract_author_year_from_citation] at h
  rcases hfw : searchCiteGo tryYearFW [] (pyStrip citation) with _ | ⟨a, y⟩
  · rcases hlat : searchCiteGo tryYearLatin [] (pyStrip citation) with _ | ⟨a, y⟩
    · rw [hfw, hlat] at h; exact absurd h (by simp)
    · rw [hfw, hlat] at h
      simp at h
      obtain ⟨hca, hcy⟩ := h
      obtain ⟨p, rest2, hl, hp, ha, l2, hty⟩ :=
        searchCiteGo_shape tryYearLatin (pyStrip citation) [] a y hlat
      rw [List.nil_append] at ha
      subst ha
      constructor
      · rcases a with _ | ⟨c, p'⟩
        · exact absurd rfl hp
        · have hhead : (pyStrip citation).head? = some c := by rw [hl]; rfl
          have hnsp := pyStrip_head_not_space citation c hhead
          rw [← hca]
          exact pyStrip_ne_nil_of_head (c :: p') c rfl hnsp
      · rw [← hcy]; exact tryYearLatin_len l2 y hty
  · rw [hfw] at h
    simp at h
    obtain ⟨hca, hcy⟩ := h
    obtain ⟨p, rest2, hl, hp, ha, l2, hty⟩ :=
      searchCiteGo_shape tryYearFW (pyStrip citation) [] a y hfw
    rw [List.nil_append] at ha
    subst ha
    constructor
    · rcases a with _ | ⟨c, p'⟩
      · exact absurd rfl hp
      · have hhead : (pyStrip citation).head? = some c := by rw [hl]; rfl
        have hnsp := pyStrip_head_not_space citation c hhead
        rw [← hca]
        exact pyStrip_ne_nil_of_head (c :: p') c rfl hnsp
    · rw [← hcy]; exact tryYearFW_len l2 y hty

theorem orElse_elim {α : Type} {x : Option α} {f : Unit → Option α} {y : α}
    (h : (x.orElse f) = some y) : x = some y ∨ f () = some y := by
  rcases x with _ | v
  · right; simpa [Option.orElse] using h
  · left; simpa [Option.orElse] using h

theorem reSearch_some {α : Type} (p : List Char → Option α) :
    ∀ (s : List Char) (y : α), reSearch p s = some y → ∃ s2, p s2 = some y
  | [], y, h => ⟨[], h⟩
  | c :: rest, y, h => by
    rw [reSearch] at h
    rcases orElse_elim h with h2 | h2
    · exact ⟨c :: rest, h2⟩
    · exact reSearch_some p rest y h2

theorem digits4Then_len (tail : List Char → Bool) (l y : List Char)
    (h : digits4Then tail l = some y) : y.length = 4 := by
  unfold digits4Then at h
  split at h
  · split at h
    · simp at h; subst h; rfl
    · exact absurd h (by simp)
  · exact absurd h (by simp)

theorem tryYearParen_len (l y : List Char) (h : tryYearParen l = some y) : y.length = 4 := by
  unfold tryYearParen at h
  split at h
  · split at h
    · simp at h; subst h; rfl
    · exact absurd h (by simp)
  · exact absurd h (by simp)

theorem tryYearParenDot_len (l y : List Char) (h : tryYearParenDot l = some y) :
    y.length = 4 := by
  unfold tryYearParenDot at h
  split at h
  · split at h
    · simp at h; subst h; rfl
    · exact absurd h (by simp)
  · exact absurd h (by simp)

theorem tryYearComma_len (tail : List Char → Bool) (l y : List Char)
    (h : tryYearComma tail l = some y) : y.length = 4 := by
  unfold tryYearComma at h
  split at h
  · exact digits4Then_len _ _ _ h
  · exact absurd h (by simp)

theorem tryYearColon_len (tail : List Char → Bool) (l y : List Char)
    (h : tryYearColon tail l = some y) : y.length = 4 := by
  unfold tryYearColon at h
  split at h
  · exact digits4Then_len _ _ _ h
  · exact absurd h (by simp)

theorem tryYearSpace_len (tail : List Char → Bool) (l y : List Char)
    (h : tryYearSpace tail l = some y) : y.length = 4 := by
  unfold tryYearSpace at h
  split at h
  · split at h
    · exact digits4Then_len _ _ _ h
    · exact absurd h (by simp)
  · exact absurd h (by simp)

theorem refYearFromText_len (s y : List Char) (h : refYearFromText s = some y) :
    y.length = 4 := by
  unfold refYearFromText at h
  rcases orElse_elim h with h | h
  · obtain ⟨s2, h2⟩ := reSearch_some _ _ _ h; exact tryYearParen_len s2 y h2
  rcases orElse_elim h with h | h
  · obtain ⟨s2, h2⟩ := reSearch_some _ _ _ h; exact tryYearParenDot_len s2 y h2
  rcases orElse_elim h with h | h
  · obtain ⟨s2, h2⟩ := reSearch_some _ _ _ h; exact tryYearComma_len _ s2 y h2
  rcases orElse_elim h with h | h
  · obtain ⟨s2, h2⟩ := reSearch_some _ _ _ h; exact tryYearComma_len _ s2 y h2
  rcases orElse_elim h with h | h
  · obtain ⟨s2, h2⟩ := reSearch_some _ _ _ h; exact tryYearComma_len _ s2 y h2
  rcases orElse_elim h with h | h
  · obtain ⟨s2, h2⟩ := reSearch_some _ _ _ h; exact tryYearColon_len _ s2 y h2
  rcases orElse_elim h with h | h
  · obtain ⟨s2, h2⟩ := reSearch_some _ _ _ h; exact tryYearColon_len _ s2 y h2
  rcases orElse_elim h with h | h
  · obtain ⟨s2, h2⟩ := reSearch_some _ _ _ h; exact tryYearSpace_len _ s2 y h2
  · obtain ⟨s2, h2⟩ := reSearch_some _ _ _ h; exact tryYearSpace_len _ s2 y h2

theorem extract_reference_year_len (r ry : List Char)
    (h : (extract_author_year_from_reference r).2 = some ry) : ry.length = 4 := by
  simp only [extract_author_year_from_reference] at h
  exact refYearFromText_len _ _ h

/-- Claim C1: `map_author_year_citation_to_reference` returns a match
exactly when some scored reference (one whose extracted author is
non-empty; others never enter scoring) has combined score
`author*0.6 + year*0.4` strictly above 0.3; the matched reference is the
first in iteration order attaining the maximum score (every scored
reference scores at most `M` and every earlier scored reference scores
strictly below `M`); and an unparseable citation is reported unmatched
(`none`) regardless of the reference list. -/
theorem map_threshold_and_first_max (citation : List Char) (refs : List (List Char)) :
    (∀ ca cy, extract_author_year_from_citation citation = (some ca, some cy) →
      (((map_author_year_citation_to_reference citation refs).isSome = true ↔
         ∃ j, ∃ (hj : j < refs.length), ∃ q,
           refCombinedScore ca cy (refs.get ⟨j, hj⟩) = some q ∧ 3/10 < q) ∧
       (∀ m, map_author_year_citation_to_reference citation refs = some m →
         ∃ (hm : m.reference < refs.length), ∃ M,
           refCombinedScore ca cy (refs.get ⟨m.reference, hm⟩) = some M ∧ 3/10 < M ∧
           (∀ k (hk : k < refs.length) q,
             refCombinedScore ca cy (refs.get ⟨k, hk⟩) = some q → q ≤ M) ∧
           (∀ k (hk : k < m.reference) q,
             refCombinedScore ca cy (refs.get ⟨k, Nat.lt_trans hk hm⟩) = some q → q < M)))) ∧
    (extract_author_year_from_citation citation = (none, none) →
      map_author_year_citation_to_reference citation refs = none) := by
  constructor
  · intro ca cy hext
    obtain ⟨hca, hcy4⟩ := extract_citation_shape citation ca cy hext
    have hcy : cy ≠ [] := by intro hnil; rw [hnil] at hcy4; simp at hcy4
    have hguard : ¬(ca = [] ∨ cy = []) := by tauto
    rcases mapLoop_char ca cy refs 0 none 0 with ⟨heq, hall⟩ | ⟨j, hj, M, hsc, hM0, hmax, hfirst, heq⟩
    · have hres : map_author_year_citation_to_reference citation refs = none := by
        simp only [map_author_year_citation_to_reference, hext, if_neg hguard, heq]
      constructor
      · rw [hres]
        simp only [Option.isSome_none]
        constructor
        · intro hfalse; exact absurd hfalse (by simp)
        · rintro ⟨j, hj, q, hq, hgt⟩
          have hle := hall j hj q hq
          have hbad : (3:ℚ)/10 < 0 := lt_of_lt_of_le hgt hle
          norm_num at hbad
      · intro m hm
        rw [hres] at hm
        exact absurd hm (by simp)
    · by_cases hthr : 3/10 < M
      · have hres : ∃ m', map_author_year_citation_to_reference citation refs = some m' ∧
            m'.reference = 0 + j := by
          simp only [map_author_year_citation_to_reference, hext, if_neg hguard, heq, if_pos hthr]
          split
          all_goals first
          | (split <;> exact ⟨_, rfl, rfl⟩)
          | exact ⟨_, rfl, rfl⟩
        obtain ⟨m', hm', hmref⟩ := hres
        constructor
        · rw [hm']
          simp only [Option.isSome_some, true_iff]
          exact ⟨j, hj, M, hsc, hthr⟩
        · intro m hm
          rw [hm'] at hm
          have hmm : m = m' := by injection hm with h2; exact h2.symm
          subst hmm
          have hmj : m.reference = j := by rw [hmref]; omega
          refine ⟨by rw [hmj]; exact hj, M, ?_, hthr, hmax, ?_⟩
          · have : refs.get ⟨m.reference, by rw [hmj]; exact hj⟩ = refs.get ⟨j, hj⟩ := by
              congr 1
              exact Fin.ext hmj
            rw [this]
            exact hsc
          · intro k hk q hq
            have hkj : k < j := by rw [hmj] at hk; exact hk
            exact hfirst k hkj q hq
      · have hres : map_author_year_citation_to_reference citation refs = none := by
          simp only [map_author_year_citation_to_reference, hext, if_neg hguard, heq, if_neg hthr]
        constructor
        · rw [hres]
          simp only [Option.isSome_none]
          constructor
          · intro hfalse; exact absurd hfalse (by simp)
          · rintro ⟨j2, hj2, q, hq, hgt⟩
            have h1 := hmax j2 hj2 q hq
            have h2 : M ≤ 3/10 := le_of_not_lt hthr
            exact absurd (lt_of_lt_of_le hgt (le_trans h1 h2)) (lt_irrefl _)
        · intro m hm
          rw [hres] at hm
          exact absurd hm (by simp)
  · intro hext
    simp [map_author_year_citation_to_reference, hext]

/-- Claim C4: for every citation matched to a reference, if the matched
reference's extracted year exists and differs from the cited year, the
result's corrected citation is `<author>（<reference_year>）` built from
the citation's author and the reference's year; otherwise — in
particular whenever the cited year equals the reference's extracted
year, or no year was extracted — the corrected citation is the original
citation text unchanged. -/
theorem corrected_citation_rule (citation : List Char) (refs : List (List Char)) (m : MapResult)
    (h : map_author_year_citation_to_reference citation refs = some m) :
    ∃ ca cy, extract_author_year_from_citation citation = (some ca, some cy) ∧
      m.original_citation = citation ∧
      ∃ (hm : m.reference < refs.length),
        ((∀ y, (extract_author_year_from_reference (refs.get ⟨m.reference, hm⟩)).2 = some y →
            y ≠ cy → m.corrected_citation = ca ++ '（' :: (y ++ ['）'])) ∧
         (((extract_author_year_from_reference (refs.get ⟨m.reference, hm⟩)).2 = none ∨
           (extract_author_year_from_reference (refs.get ⟨m.reference, hm⟩)).2 = some cy) →
            m.corrected_citation = citation)) := by
  rcases hext : extract_author_year_from_citation citation with ⟨o1, o2⟩
  rcases o1 with _ | ca
  · rw [show map_author_year_citation_to_reference citation refs = none by
      simp [map_author_year_citation_to_reference, hext]] at h
    exact absurd h (by simp)
  rcases o2 with _ | cy
  · rw [show map_author_year_citation_to_reference citation refs = none by
      simp [map_author_year_citation_to_reference, hext]] at h
    exact absurd h (by simp)
  obtain ⟨hca, hcy4⟩ := extract_citation_shape citation ca cy hext
  have hcy : cy ≠ [] := by intro hnil; rw [hnil] at hcy4; simp at hcy4
  have hguard : ¬(ca = [] ∨ cy = []) := by tauto
  rcases mapLoop_char ca cy refs 0 none 0 with ⟨heq, hall⟩ | ⟨j, hj, M, hsc, hM0, hmax, hfirst, heq⟩
  · rw [show map_author_year_citation_to_reference citation refs = none by
      simp only [map_author_year_citation_to_reference, hext, if_neg hguard, heq]] at h
    exact absurd h (by simp)
  · by_cases hthr : 3/10 < M
    · simp only [map_author_year_citation_to_reference, hext, if_neg hguard, heq,
        if_pos hthr, Nat.zero_add] at h
      rcases hry : (extract_author_year_from_reference (refs.get ⟨j, hj⟩)).2 with _ | y <;>
        rw [hry] at h
      · obtain rfl : m = ⟨j, citation, citation⟩ := by
          injection h with h2
          exact h2.symm
        refine ⟨ca, cy, rfl, rfl, hj, ?_, ?_⟩
        · intro y2 hy2 hne2
          have hy2' : (extract_author_year_from_reference (refs.get ⟨j, hj⟩)).2 = some y2 := hy2
          rw [hry] at hy2'
          exact absurd hy2' (by simp)
        · intro _
          rfl
      · have hy4 := extract_reference_year_len _ _ hry
        have hynil : y ≠ [] := by intro hn; rw [hn] at hy4; simp at hy4
        have hif : (if y ≠ [] ∧ cy ≠ [] ∧ y ≠ cy then
            some (⟨j, ca ++ '（' :: (y ++ ['）']), citation⟩ : MapResult)
          else some ⟨j, citation, citation⟩) = some m := h
        by_cases hcnd : y ≠ [] ∧ cy ≠ [] ∧ y ≠ cy
        · rw [if_pos hcnd] at hif
          obtain rfl : m = ⟨j, ca ++ '（' :: (y ++ ['）']), citation⟩ := by
            injection hif with h2
            exact h2.symm
          refine ⟨ca, cy, rfl, rfl, hj, ?_, ?_⟩
          · intro y2 hy2 hne2
            have hy2' : (extract_author_year_from_reference (refs.get ⟨j, hj⟩)).2 = some y2 := hy2
            rw [hry] at hy2'
            injection hy2' with hyy
            subst hyy
            rfl
          · intro hcase
            have hcase' : (extract_author_year_from_reference (refs.get ⟨j, hj⟩)).2 = none ∨
                (extract_author_year_from_reference (refs.get ⟨j, hj⟩)).2 = some cy := hcase
            rcases hcase' with hno | hsome
            · rw [hry] at hno; exact absurd hno (by simp)
            · rw [hry] at hsome
              injection hsome with hyy
              exact absurd hyy hcnd.2.2
        · rw [if_neg hcnd] at hif
          have hyeq : y = cy := by
            by_contra hne
            exact hcnd ⟨hynil, hcy, hne⟩
          obtain rfl : m = ⟨j, citation, citation⟩ := by
            injection hif with h2
            exact h2.symm
          refine ⟨ca, cy, rfl, rfl, hj, ?_, ?_⟩
          · intro y2 hy2 hne2
            have hy2' : (extract_author_year_from_reference (refs.get ⟨j, hj⟩)).2 = some y2 := hy2
            rw [hry] at hy2'
            injection hy2' with hyy
            subst hyy
            exact absurd hyeq hne2
          · intro _
            rfl
    · rw [show map_author_year_citation_to_reference citation refs = none by
        simp only [map_author_year_citation_to_reference, hext, if_neg hguard, heq,
          if_neg hthr]] at h
      exact absurd h (by simp)

/-- Witness for claim C1: a parseable citation with a perfectly matching
reference is matched. -/
theorem map_threshold_and_first_max_witness :
    (map_author_year_citation_to_reference ("张三（2024）".toList)
      [("张三，李四. 标题. 期刊, 2024.".toList)]).isSome = true := by
  have h := (map_threshold_and_first_max ("张三（2024）".toList)
      [("张三，李四. 标题. 期刊, 2024.".toList)]).1 ("张三".toList) ("2024".toList) (by decide)
  exact h.1.mpr ⟨0, by decide, 1, by decide, by norm_num⟩

/-- Witness for claim C2: the equality tiers evaluated at concrete
inputs. -/
theorem author_year_score_spec_witness :
    calculate_author_match_score ("Smith".toList) ("Smith, J. (2020).".toList)
      ("Smith".toList) = 1 ∧
    calculate_year_match_score ("2020".toList) ("Smith, J. (2020).".toList)
      (some ("2020".toList)) = 1 := by
  have h := author_year_score_spec ("Smith".toList) ("Smith, J. (2020).".toList)
      ("Smith".toList) ("2020".toList) (some ("2020".toList)) (by decide)
  exact ⟨h.1.1 (by decide), h.2.1 rfl⟩

/-- Witness for claim C3: an OCR-equal pair is confusable, a short year is
not, and a fully different year is not. -/
theorem is_ocr_error_spec_witness :
    is_ocr_error ("2O2O".toList) ("2020".toList) = true ∧
    is_ocr_error ("199".toList) ("1999".toList) = false ∧
    is_ocr_error ("1234".toList) ("5678".toList) = false := by
  refine ⟨?_, ?_, ?_⟩
  · exact ((is_ocr_error_spec ("2O2O".toList) ("2020".toList)).2 (by decide) (by decide)).1
      (by decide)
  · exact (is_ocr_error_spec ("199".toList) ("1999".toList)).1 (by decide)
  · exact ((is_ocr_error_spec ("1234".toList) ("5678".toList)).2 (by decide)
      (by decide)).2.2.2 (by decide)

/-- Witness for claim C4: the year-correcting branch evaluated at the
OCR-corrupted Smith citation. -/
theorem corrected_citation_rule_witness :
    (⟨0, "Smith（2020）".toList, "Smith（2O2O）".toList⟩ : MapResult).corrected_citation =
      ("Smith".toList) ++ '（' :: (("2020".toList) ++ ['）']) := by
  obtain ⟨ca, cy, hext, horig, hm, hsome, hnone⟩ :=
    corrected_citation_rule ("Smith（2O2O）".toList) [("Smith, J. (2020).".toList)]
      ⟨0, "Smith（2020）".toList, "Smith（2O2O）".toList⟩ (by decide)
  have he : extract_author_year_from_citation ("Smith（2O2O）".toList) =
      (some ("Smith".toList), some ("2O2O".toList)) := by decide
  rw [he] at hext
  have hca : ("Smith".toList) = ca := by
    have := congrArg Prod.fst hext
    simpa using this
  have hcy : ("2O2O".toList) = cy := by
    have := congrArg Prod.snd hext
    simpa using this
  have hy : (extract_author_year_from_reference
      ([("Smith, J. (2020).".toList)].get ⟨0, by norm_num⟩)).2 = some ("2020".toList) := by
    decide
  have := hsome ("2020".toList) hy (by rw [← hcy]; decide)
  rw [this, ← hca]

/-- Counterexample to claim C5 as stated: for citation `Smith（2O2O）`
against reference `Smith, J. (2020).` the extracted reference author is
`Smith`, equal (case-folded) to the citation author, so the author score
is 1.0 via the exact-equality tier — not 0.9 via the substring tier as
the claim asserts. -/
theorem smith_author_score_is_exact_not_substring :
    extract_author_year_from_citation ("Smith（2O2O）".toList) =
      (some ("Smith".toList), some ("2O2O".toList)) ∧
    extract_author_year_from_reference ("Smith, J. (2020).".toList) =
      (some ("Smith".toList), some ("2020".toList)) ∧
    calculate_author_match_score ("Smith".toList) ("Smith, J. (2020).".toList)
      ("Smith".toList) = 1 ∧
    ¬ calculate_author_match_score ("Smith".toList) ("Smith, J. (2020).".toList)
      ("Smith".toList) = 9/10 := by
  refine ⟨by decide, by decide, by decide, by decide⟩

/-- Claim C5 (amended): for citation `Smith（2O2O）` against the single
reference `Smith, J. (2020).`, the author score is 1.0 (exact tier), the
year pair `2O2O`/`2020` is OCR-confusable giving year score 0.9, the
combined score 24/25 is at least 0.9, the citation is matched to that
reference, and the corrected citation is `Smith（2020）`. -/
theorem smith_scenario_amended :
    calculate_author_match_score ("Smith".toList) ("Smith, J. (2020).".toList)
      ("Smith".toList) = 1 ∧
    is_ocr_error ("2O2O".toList) ("2020".toList) = true ∧
    calculate_year_match_score ("2O2O".toList) ("Smith, J. (2020).".toList)
      (some ("2020".toList)) = 9/10 ∧
    refCombinedScore ("Smith".toList) ("2O2O".toList) ("Smith, J. (2020).".toList) =
      some (24/25) ∧
    (9/10 : ℚ) ≤ 24/25 ∧
    map_author_year_citation_to_reference ("Smith（2O2O）".toList)
      [("Smith, J. (2020).".toList)] =
      some ⟨0, "Smith（2020）".toList, "Smith（2O2O）".toList⟩ := by
  refine ⟨by decide, by decide, by decide, by decide, by norm_num, by decide⟩

/-- Claim C6: for citation `张三（2024）` and the single reference
`张三，李四. 标题. 期刊, 2024.`, the author score is 1.0, the year score
is 1.0, the combined score is 1.0, the citation is matched to that
reference (with no correction), and the compact formatter renders the
extracted author list and year as `张三 等（2024）`. -/
theorem zhang_scenario_spec :
    calculate_author_match_score ("张三".toList) ("张三，李四. 标题. 期刊, 2024.".toList)
      ("张三".toList) = 1 ∧
    calculate_year_match_score ("2024".toList) ("张三，李四. 标题. 期刊, 2024.".toList)
      (some ("2024".toList)) = 1 ∧
    refCombinedScore ("张三".toList) ("2024".toList)
      ("张三，李四. 标题. 期刊, 2024.".toList) = some 1 ∧
    map_author_year_citation_to_reference ("张三（2024）".toList)
      [("张三，李四. 标题. 期刊, 2024.".toList)] =
      some ⟨0, "张三（2024）".toList, "张三（2024）".toList⟩ ∧
    extract_chinese_authors ("张三，李四. 标题. 期刊, 2024.".toList) =
      [("张三".toList), ("李四".toList)] ∧
    format_chinese_academy_of_sciences [("张三".toList), ("李四".toList)] ("2024".toList) =
      ("张三 等（2024）".toList) := by
  refine ⟨by decide, by decide, by decide, by decide, by decide, by decide⟩

/-- Counterexample to claim C7 as stated: the single author
`UNITED NATIONS` is fully upper-case, but the default compact formatter
renders `NATIONS（2020）` — the extracted surname, not the organisation
name as-is. -/
theorem institutional_author_not_as_is :
    pyIsUpper ("UNITED NATIONS".toList) = true ∧
    format_chinese_academy_of_sciences [("UNITED NATIONS".toList)] ("2020".toList) =
      ("NATIONS（2020）".toList) ∧
    ¬ format_chinese_academy_of_sciences [("UNITED NATIONS".toList)] ("2020".toList) =
      ("UNITED NATIONS（2020）".toList) := by
  refine ⟨by decide, by decide, by decide⟩

/-- Claim C7 (amended): for a single non-Chinese author, when the
extracted surname (segment before a comma, else the last whitespace
token) has more than 2 whitespace tokens or is fully upper-case, the
default compact formatter renders that surname as-is followed by the
year in full-width parentheses. -/
theorem institutional_surname_rule (a year : List Char)
    (hnc : contains_chinese a = false)
    (hinst : (pySplit (fmtExtractSurname a)).length > 2 ∨
      pyIsUpper (fmtExtractSurname a) = true) :
    format_chinese_academy_of_sciences [a] year =
      fmtExtractSurname a ++ ("（".toList) ++ year ++ ("）".toList) := by
  simp only [format_chinese_academy_of_sciences, hnc, Bool.false_eq_true, if_false,
    List.map, List.headD, List.length]
  rw [if_pos ⟨by trivial, hinst⟩]

/-- Witness for claim C7 (amended), at the fully upper-case author
`UNITED NATIONS`. -/
theorem institutional_surname_rule_witness :
    format_chinese_academy_of_sciences [("UNITED NATIONS".toList)] ("2020".toList) =
      fmtExtractSurname ("UNITED NATIONS".toList) ++ ("（".toList) ++ ("2020".toList) ++
        ("）".toList) :=
  institutional_surname_rule ("UNITED NATIONS".toList) ("2020".toList) (by decide) (by decide)

/-- Counterexample to claim C8 as stated: passing Python `None` to the
citation-to-reference mapper or to the citation author/year extractor
raises `AttributeError` (from `None.strip()`) instead of treating the
input as an empty string. -/
theorem none_input_raises_attribute_error :
    (∃ e, extract_author_year_from_citation_py none = Except.error e) ∧
    (∃ e, map_author_year_citation_to_reference_py none [] = Except.error e) :=
  ⟨⟨_, rfl⟩, ⟨_, rfl⟩⟩

/-- Claim C8 (amended): the author-similarity entry points
(`calculate_author_similarity`, `is_english_name`, `extract_surname`)
treat `None` as the empty string and return normally, while the
citation-mapping entry points (`map_author_year_citation_to_reference`,
`extract_author_year_from_citation`) raise `AttributeError` on `None`. -/
theorem none_handling_amended (x : Option (List Char)) :
    calculate_author_similarity none x = calculate_author_similarity (some []) x ∧
    calculate_author_similarity x none = calculate_author_similarity x (some []) ∧
    is_english_name none = false ∧
    extract_surname none = [] ∧
    calculate_author_similarity none none = 1 ∧
    (∀ refs, ∃ e, map_author_year_citation_to_reference_py none refs = Except.error e) ∧
    (∃ e, extract_author_year_from_citation_py none = Except.error e) := by
  refine ⟨rfl, rfl, rfl, rfl, by decide, fun refs => ⟨_, rfl⟩, ⟨_, rfl⟩⟩

/-- Claim C9, evaluated at the failing input: with two reference entries
sharing the text `[1] Smith.` and the single citation `[1]`, only the
entry at index 0 is ever selected, yet `unused_references` is empty —
the never-selected duplicate at index 1 does not appear, because the
source keys the used set by raw reference text. -/
theorem unused_references_drops_duplicate :
    analyzerSelections [("[1]".toList)]
      [("[1] Smith.".toList), ("[1] Smith.".toList)] = [0] ∧
    analyzer_unused_references [("[1]".toList)]
      [("[1] Smith.".toList), ("[1] Smith.".toList)] = [] ∧
    analyzer_unused_references [("[1]".toList)]
      [("[1] Smith.".toList), ("[2] Jones.".toList)] = [("[2] Jones.".toList)] := by
  refine ⟨by decide, by decide, by decide⟩
